import Mathlib

set_option maxRecDepth 2000

/-!
# Verification of the page-speed analysis pipeline

A shallow embedding, in Lean 4, of the metrics-normalization and
report-assembly code of the repository:

* `fetch_psi.py` — threshold classifier, display-unit conversion and the
  lab-metrics (Lighthouse) opportunity extraction;
* `fetch_crux.py` — field-metrics classifier, p75 conversion and histogram
  parsing;
* `capture_network.py` — network-event aggregation (dedup by URL, by-type
  summary, largest resources);
* `generate_excel.py` — the four report sheets.

Conventions of the embedding:

* JSON / Python numbers are modelled as rationals (`ℚ`); machine floats do
  not occur as such in the modelled logic (all comparisons and arithmetic
  are exact on the decimal values the pipeline manipulates).
* Python dicts appearing as finite string-keyed mappings are modelled as
  association lists in insertion order, with first-match lookup.
* A Python value that may be absent (missing dict key) is an `Option`;
  a JSON `null` stored under a present key is modelled as `some none`
  where the distinction matters.
* Fallible Python operations (list indexing, `float(...)` parsing) return
  `Except String` / `Option`; total code is embedded as total functions.
-/

/-! ## Rounding (model of Python's `round`, which rounds half to even) -/

/-- Floor of a rational, computed directly via flooring integer division
(`q.den` is always positive, so `Int.fdiv` of numerator by denominator is
the floor). -/
def qfloor (q : ℚ) : ℤ :=
  q.num.fdiv (q.den : ℤ)

/-- Python's `round(x)` (no digits argument): round half to even, to an
integer. -/
def pyRoundInt (q : ℚ) : ℤ :=
  let n := qfloor q
  let f := q - (n : ℚ)
  if f < 1/2 then n
  else if (1/2 : ℚ) < f then n + 1
  else if n % 2 = 0 then n else n + 1

/-- Python's `round(x, d)` for `d ≥ 0` digits: round half to even at the
`d`-th decimal place. -/
def pyRound (q : ℚ) (d : ℕ) : ℚ :=
  (pyRoundInt (q * (10 : ℚ) ^ d) : ℚ) / (10 : ℚ) ^ d

/-! ## Decimal rendering (model of Python's `str` on the numbers the
pipeline prints into report cells) -/

/-- Digit character for `n % 10`. -/
def digitChar10 (n : ℕ) : Char :=
  Char.ofNat (48 + n % 10)

/-- Base-10 digits of a natural number, least significant first.
Fuel-based structural recursion so that the kernel can evaluate it. -/
def natDigitsAux : ℕ → ℕ → List ℕ
  | 0, _ => []
  | fuel + 1, n => if n < 10 then [n] else n % 10 :: natDigitsAux fuel (n / 10)

/-- Base-10 digits of `n`, least significant first; the fuel `n + 1`
always suffices. -/
def natDigits (n : ℕ) : List ℕ :=
  natDigitsAux (n + 1) n

/-- Decimal string of a natural number. -/
def natStr (n : ℕ) : String :=
  String.mk ((natDigits n).reverse.map digitChar10)

/-- Decimal string of an integer. -/
def intStr (i : ℤ) : String :=
  if i < 0 then "-" ++ natStr i.natAbs else natStr i.natAbs

/-- Digits after the decimal point of the fraction `num / den`
(`num < den`), most significant first, at most `fuel` digits. -/
def fracDigitsAux : ℕ → ℕ → ℕ → List ℕ
  | 0, _, _ => []
  | fuel + 1, num, den =>
    if num = 0 then [] else (num * 10) / den :: fracDigitsAux fuel ((num * 10) % den) den

/-- Decimal rendering of a rational: the model of how Python prints the
(decimal-valued) numbers the pipeline embeds in formatted strings.
Integer-valued numbers are printed without a fractional part. -/
def numStr (q : ℚ) : String :=
  (if q < 0 then "-" else "") ++
    (if q.den = 1 then natStr q.num.natAbs
     else natStr (q.num.natAbs / q.den) ++ "." ++
       String.mk ((fracDigitsAux 30 (q.num.natAbs % q.den) q.den).map digitChar10))

theorem natDigitsAux_ne_nil (fuel n : ℕ) (h : fuel ≠ 0) : natDigitsAux fuel n ≠ [] := by
  cases fuel with
  | zero => exact absurd rfl h
  | succ m =>
    simp only [natDigitsAux]
    split <;> simp

theorem natStr_length_pos (n : ℕ) : 0 < (natStr n).length := by
  have h := natDigitsAux_ne_nil (n + 1) n (Nat.succ_ne_zero n)
  have hlen : 0 < (natDigits n).length := List.length_pos.mpr h
  simpa [natStr, String.length, natDigits] using hlen

theorem numStr_length_pos (q : ℚ) : 0 < (numStr q).length := by
  have h1 := natStr_length_pos q.num.natAbs
  have h2 := natStr_length_pos (q.num.natAbs / q.den)
  simp only [numStr, String.length_append]
  split <;> split <;> (try simp only [String.length_append]) <;> omega

theorem numStr_ne_empty (q : ℚ) : numStr q ≠ "" := by
  intro h
  have hlen := congrArg String.length h
  have h0 : ("" : String).length = 0 := rfl
  rw [h0] at hlen
  have := numStr_length_pos q
  omega

/-! ## Association-list lookup (model of Python dict lookup) -/

/-- First-match lookup in an association list with string keys; models
`d.get(k)` / `k in d` on the Python dicts the pipeline builds. -/
def lookupStr {α : Type} (k : String) : List (String × α) → Option α
  | [] => none
  | p :: rest => if p.1 = k then some p.2 else lookupStr k rest

theorem lookupStr_mem {α : Type} {k : String} {l : List (String × α)} {v : α}
    (h : lookupStr k l = some v) : (k, v) ∈ l := by
  induction l with
  | nil => simp [lookupStr] at h
  | cons p rest ih =>
    obtain ⟨pk, pv⟩ := p
    simp only [lookupStr] at h
    split at h
    · rename_i heq
      cases h
      have heq2 : pk = k := heq
      subst heq2
      exact List.mem_cons_self _ _
    · exact List.mem_cons_of_mem _ (ih h)

/-- Model of Python's `str.lower` / Lean's `String.toLower` (ASCII):
lower-case each character. -/
def strToLower (s : String) : String :=
  String.mk (s.data.map Char.toLower)

/-! ## Threshold classifier (`fetch_psi.py`) -/

/-- `CWV_THRESHOLDS` of `fetch_psi.py`: metric key ↦ (good, poor)
threshold pair.  The source also stores a display `unit` string per entry;
it is never read by `get_status` or `convert_to_display_unit` and is
omitted here. -/
def CWV_THRESHOLDS_psi : List (String × ℚ × ℚ) :=
  [("lcp", 2500, 4000),
   ("inp", 200, 500),
   ("cls", 1/10, 1/4),
   ("fcp", 1800, 3000),
   ("ttfb", 800, 1800)]

/-- `get_status` of `fetch_psi.py`.  When the (lower-cased) metric has no
table entry the source uses `good = poor = float("inf")`, and
`value <= inf` always holds, so that branch returns `"good"`. -/
def get_status (metric : String) (value : ℚ) : String :=
  match lookupStr (strToLower metric) CWV_THRESHOLDS_psi with
  | none => "good"
  | some gp =>
    if value ≤ gp.1 then "good"
    else if value ≤ gp.2 then "needs_improvement"
    else "poor"

/-- `convert_to_display_unit` of `fetch_psi.py`. -/
def convert_to_display_unit (metric : String) (value_ms : ℚ) : ℚ × String :=
  if strToLower metric = "lcp" ∨ strToLower metric = "fcp" ∨ strToLower metric = "ttfb" then
    (pyRound (value_ms / 1000) 2, "s")
  else if strToLower metric = "inp" ∨ strToLower metric = "tbt" then
    (pyRound value_ms 0, "ms")
  else if strToLower metric = "cls" then
    (pyRound value_ms 3, "")
  else
    (pyRound value_ms 2, "ms")

/-! ## Field-side classifier (`fetch_crux.py`) -/

/-- One entry of the CrUX threshold table: good / poor thresholds and the
display unit used by `convert_p75`. -/
structure CruxThresh where
  good : ℚ
  poor : ℚ
  display : String
deriving DecidableEq

/-- `CWV_THRESHOLDS` of `fetch_crux.py` (the source also stores a `unit`
field, never read by the functions modelled here). -/
def CWV_THRESHOLDS_crux : List (String × CruxThresh) :=
  [("largest_contentful_paint", ⟨2500, 4000, "s"⟩),
   ("interaction_to_next_paint", ⟨200, 500, "ms"⟩),
   ("cumulative_layout_shift", ⟨1/10, 1/4, ""⟩),
   ("first_contentful_paint", ⟨1800, 3000, "s"⟩),
   ("experimental_time_to_first_byte", ⟨800, 1800, "s"⟩),
   ("first_input_delay", ⟨100, 300, "ms"⟩)]

/-- `get_status` of `fetch_crux.py` (no lower-casing here; the caller
passes an already lower-cased key).  Missing table entry behaves as
`good = poor = inf`, hence `"good"`. -/
def crux_get_status (metric_key : String) (p75_value : ℚ) : String :=
  match lookupStr metric_key CWV_THRESHOLDS_crux with
  | none => "good"
  | some t =>
    if p75_value ≤ t.good then "good"
    else if p75_value ≤ t.poor then "needs_improvement"
    else "poor"

/-- `convert_p75` of `fetch_crux.py`: the display unit is looked up in the
threshold table, defaulting to `"ms"` for unknown keys. -/
def convert_p75 (metric_key : String) (value : ℚ) : ℚ × String :=
  let display :=
    match lookupStr metric_key CWV_THRESHOLDS_crux with
    | none => "ms"
    | some t => t.display
  if display = "s" then (pyRound (value / 1000) 2, "s")
  else if display = "ms" then (pyRound value 0, "ms")
  else (pyRound value 3, "")

/-- Quality-band ordering used to state monotonicity:
good < needs_improvement < poor. -/
def statusRank (s : String) : ℕ :=
  if s = "good" then 0 else if s = "needs_improvement" then 1 else 2

theorem psi_thresholds_good_le_poor {m : String} {g p : ℚ}
    (h : lookupStr m CWV_THRESHOLDS_psi = some (g, p)) : g ≤ p := by
  have hmem := lookupStr_mem h
  simp only [CWV_THRESHOLDS_psi, List.mem_cons, List.not_mem_nil, or_false,
    Prod.mk.injEq] at hmem
  rcases hmem with ⟨_, h1, h2⟩ | ⟨_, h1, h2⟩ | ⟨_, h1, h2⟩ | ⟨_, h1, h2⟩ | ⟨_, h1, h2⟩ <;>
    rw [h1, h2] <;> norm_num

theorem crux_thresholds_good_le_poor {m : String} {t : CruxThresh}
    (h : lookupStr m CWV_THRESHOLDS_crux = some t) : t.good ≤ t.poor := by
  have hmem := lookupStr_mem h
  simp only [CWV_THRESHOLDS_crux, List.mem_cons, List.not_mem_nil, or_false,
    Prod.mk.injEq] at hmem
  rcases hmem with ⟨_, h1⟩ | ⟨_, h1⟩ | ⟨_, h1⟩ | ⟨_, h1⟩ | ⟨_, h1⟩ | ⟨_, h1⟩ <;>
    rw [h1] <;> norm_num

theorem status_bands {g p v : ℚ} (hgp : g ≤ p) :
    ((if v ≤ g then "good" else if v ≤ p then "needs_improvement" else "poor") = "good"
        ↔ v ≤ g) ∧
    ((if v ≤ g then "good" else if v ≤ p then "needs_improvement" else "poor")
        = "needs_improvement" ↔ g < v ∧ v ≤ p) ∧
    ((if v ≤ g then "good" else if v ≤ p then "needs_improvement" else "poor") = "poor"
        ↔ p < v) := by
  by_cases h1 : v ≤ g
  · rw [if_pos h1]
    refine ⟨⟨fun _ => h1, fun _ => rfl⟩,
            ⟨fun hs => absurd hs (by decide), fun hv => absurd h1 (not_le.mpr hv.1)⟩,
            ⟨fun hs => absurd hs (by decide),
             fun hv => absurd h1 (not_le.mpr (lt_of_le_of_lt hgp hv))⟩⟩
  · by_cases h2 : v ≤ p
    · rw [if_neg h1, if_pos h2]
      push_neg at h1
      refine ⟨⟨fun hs => absurd hs (by decide), fun hv => absurd hv (not_le.mpr h1)⟩,
              ⟨fun _ => ⟨h1, h2⟩, fun _ => rfl⟩,
              ⟨fun hs => absurd hs (by decide), fun hv => absurd h2 (not_le.mpr hv)⟩⟩
    · rw [if_neg h1, if_neg h2]
      push_neg at h1 h2
      refine ⟨⟨fun hs => absurd hs (by decide), fun hv => absurd hv (not_le.mpr h1)⟩,
              ⟨fun hs => absurd hs (by decide), fun hv => absurd hv.2 (not_le.mpr h2)⟩,
              ⟨fun _ => h2, fun _ => rfl⟩⟩

/-- Claim C1: For every metric kind with a threshold-table entry and every
numeric rawValue, the classifier returns `good` iff `rawValue ≤ good`,
`needs_improvement` iff `good < rawValue ≤ poor`, and `poor` otherwise;
identically in the lab-side (`fetch_psi.get_status`) and field-side
(`fetch_crux.get_status`) classifiers, whose tables carry
LCP 2500/4000, INP 200/500, CLS 0.1/0.25, FCP 1800/3000, TTFB 800/1800
and (field side) FID 100/300. -/
theorem claim_C1 (m : String) (g p v : ℚ) :
    (lookupStr (strToLower m) CWV_THRESHOLDS_psi = some (g, p) →
      ((get_status m v = "good" ↔ v ≤ g) ∧
       (get_status m v = "needs_improvement" ↔ g < v ∧ v ≤ p) ∧
       (get_status m v = "poor" ↔ p < v))) ∧
    (∀ t : CruxThresh, lookupStr m CWV_THRESHOLDS_crux = some t →
      ((crux_get_status m v = "good" ↔ v ≤ t.good) ∧
       (crux_get_status m v = "needs_improvement" ↔ t.good < v ∧ v ≤ t.poor) ∧
       (crux_get_status m v = "poor" ↔ t.poor < v))) := by
  constructor
  · intro h
    have hgp := psi_thresholds_good_le_poor h
    have hb := status_bands (v := v) hgp
    simpa [get_status, h] using hb
  · intro t h
    have hgp := crux_thresholds_good_le_poor h
    have hb := status_bands (v := v) hgp
    simpa [crux_get_status, h] using hb

/-- Witness for C1: concrete instantiations of both classifiers. -/
theorem claim_C1_witness :
    (get_status "lcp" 1000 = "good" ↔ (1000 : ℚ) ≤ 2500) ∧
    (crux_get_status "largest_contentful_paint" 3000 = "needs_improvement" ↔
      ((2500 : ℚ) < 3000 ∧ (3000 : ℚ) ≤ 4000)) := by
  constructor
  · exact ((claim_C1 "lcp" 2500 4000 1000).1 (by decide)).1
  · exact ((claim_C1 "largest_contentful_paint" 0 0 3000).2 ⟨2500, 4000, "s"⟩
      (by decide)).2.1

/-- Claim C2: `convertToDisplay` maps LCP/FCP/TTFB to seconds rounded to two
decimals with unit `"s"`, INP/TBT to milliseconds rounded to zero decimals
with unit `"ms"`, and CLS to a unitless value rounded to three decimals —
in both the lab-side converter and the field-side (table-driven) one; and
for raw LCP = 4200 ms, classification yields `poor` and conversion yields
`(4.2, "s")`. -/
theorem claim_C2 (v : ℚ) :
    convert_to_display_unit "lcp" v = (pyRound (v / 1000) 2, "s") ∧
    convert_to_display_unit "fcp" v = (pyRound (v / 1000) 2, "s") ∧
    convert_to_display_unit "ttfb" v = (pyRound (v / 1000) 2, "s") ∧
    convert_to_display_unit "inp" v = (pyRound v 0, "ms") ∧
    convert_to_display_unit "tbt" v = (pyRound v 0, "ms") ∧
    convert_to_display_unit "cls" v = (pyRound v 3, "") ∧
    convert_p75 "largest_contentful_paint" v = (pyRound (v / 1000) 2, "s") ∧
    convert_p75 "first_contentful_paint" v = (pyRound (v / 1000) 2, "s") ∧
    convert_p75 "experimental_time_to_first_byte" v = (pyRound (v / 1000) 2, "s") ∧
    convert_p75 "interaction_to_next_paint" v = (pyRound v 0, "ms") ∧
    convert_p75 "cumulative_layout_shift" v = (pyRound v 3, "") ∧
    get_status "lcp" 4200 = "poor" ∧
    convert_to_display_unit "lcp" 4200 = (21/5, "s") := by
  have h1 : strToLower "lcp" = "lcp" := rfl
  have h2 : strToLower "fcp" = "fcp" := rfl
  have h3 : strToLower "ttfb" = "ttfb" := rfl
  have h4 : strToLower "inp" = "inp" := rfl
  have h5 : strToLower "tbt" = "tbt" := rfl
  have h6 : strToLower "cls" = "cls" := rfl
  refine ⟨?_, ?_, ?_, ?_, ?_, ?_, ?_, ?_, ?_, ?_, ?_,
    by with_unfolding_all decide, by with_unfolding_all decide⟩ <;>
    simp [convert_to_display_unit, convert_p75, CWV_THRESHOLDS_crux, lookupStr,
      h1, h2, h3, h4, h5, h6] <;>
    first
      | decide
      | (rw [if_neg (by decide), if_neg (by decide)])

/-- Claim C6: For every kind with a threshold-table entry, classification is
monotone in the raw value under the band order
good < needs_improvement < poor, in both classifiers. -/
theorem claim_C6 (m : String) (v₁ v₂ : ℚ) (h : v₁ ≤ v₂) :
    (∀ g p : ℚ, lookupStr (strToLower m) CWV_THRESHOLDS_psi = some (g, p) →
      statusRank (get_status m v₁) ≤ statusRank (get_status m v₂)) ∧
    (∀ t : CruxThresh, lookupStr m CWV_THRESHOLDS_crux = some t →
      statusRank (crux_get_status m v₁) ≤ statusRank (crux_get_status m v₂)) := by
  constructor
  · intro g p hl
    simp only [get_status, hl]
    split_ifs <;> simp [statusRank] <;> linarith
  · intro t hl
    simp only [crux_get_status, hl]
    split_ifs <;> simp [statusRank] <;> linarith

/-- Witness for C6: concrete monotone instances for both classifiers. -/
theorem claim_C6_witness :
    statusRank (get_status "inp" 100) ≤ statusRank (get_status "inp" 600) ∧
    statusRank (crux_get_status "first_input_delay" 100) ≤
      statusRank (crux_get_status "first_input_delay" 600) := by
  constructor
  · exact (claim_C6 "inp" 100 600 (by norm_num)).1 200 500 (by decide)
  · exact (claim_C6 "first_input_delay" 100 600 (by norm_num)).2 ⟨100, 300, "ms"⟩
      (by decide)

/-! ## Histogram parsing (`fetch_crux.py`) -/

/-- One CrUX histogram bucket, as consumed by `parse_histogram`: only its
`density` field is read (`bucket.get("density", 0)`), and the CrUX API
returns densities as decimal strings. -/
structure Bucket where
  density : Option String
deriving DecidableEq

/-- Numeric value of a list of ASCII digit characters. -/
def digitsToNat (l : List Char) : ℕ :=
  l.foldl (fun acc c => acc * 10 + (c.toNat - 48)) 0

/-- Model of Python's `float(s)` on the plain decimal strings the CrUX API
produces: optional sign, integer digits, optional fractional digits.
Returns `none` (a `ValueError` in the source) on anything else. -/
def parseDecimal (s : String) : Option ℚ :=
  let step2 : ℚ → List Char → Option ℚ := fun sgn rest =>
    let ip := rest.takeWhile Char.isDigit
    let rest2 := rest.dropWhile Char.isDigit
    match rest2 with
    | [] => if ip.isEmpty then none else some (sgn * (digitsToNat ip : ℚ))
    | c :: t =>
      if c = '.' then
        let fp := t.takeWhile Char.isDigit
        let rest3 := t.dropWhile Char.isDigit
        if rest3.isEmpty && (!ip.isEmpty || !fp.isEmpty) then
          some (sgn * ((digitsToNat ip : ℚ) + (digitsToNat fp : ℚ) / (10 : ℚ) ^ fp.length))
        else none
      else none
  match s.data with
  | [] => none
  | c :: t =>
    if c = '-' then step2 (-1) t
    else if c = '+' then step2 1 t
    else step2 1 (c :: t)

/-- `float(bucket.get("density", 0))`: a missing key gives the number `0`;
a present string is parsed, raising (modelled as `Except.error`) when it is
not a valid decimal. -/
def bucketDensity (b : Bucket) : Except String ℚ :=
  match b.density with
  | none => Except.ok 0
  | some s =>
    match parseDecimal s with
    | some q => Except.ok q
    | none => Except.error "could not convert string to float"

/-- `parse_histogram` of `fetch_crux.py`: fewer than three buckets (or an
absent histogram) yields the empty mapping; otherwise the first three
densities are parsed and rounded to three decimals. -/
def parse_histogram (h : List Bucket) : Except String (List (String × ℚ)) :=
  match h with
  | b0 :: b1 :: b2 :: _ =>
    match bucketDensity b0, bucketDensity b1, bucketDensity b2 with
    | Except.ok d0, Except.ok d1, Except.ok d2 =>
      Except.ok [("good", pyRound d0 3), ("needs_improvement", pyRound d1 3),
        ("poor", pyRound d2 3)]
    | Except.error e, _, _ => Except.error e
    | _, Except.error e, _ => Except.error e
    | _, _, Except.error e => Except.error e
  | _ => Except.ok []

/-- Claim C7: The histogram parser returns an empty mapping for every
histogram with fewer than 3 buckets (never zero-padded), and for a
3-bucket histogram with densities `"0.6"`, `"0.3"`, `"0.1"` it returns
good ↦ 0.6, needs_improvement ↦ 0.3, poor ↦ 0.1, parsing the textual
decimals to numbers. -/
theorem claim_C7 :
    (∀ h : List Bucket, h.length < 3 → parse_histogram h = Except.ok []) ∧
    parse_histogram [⟨some "0.6"⟩, ⟨some "0.3"⟩, ⟨some "0.1"⟩] =
      Except.ok [("good", 3/5), ("needs_improvement", 3/10), ("poor", 1/10)] ∧
    parseDecimal "0.6" = some (3/5) := by
  refine ⟨?_, by with_unfolding_all rfl, by with_unfolding_all decide⟩
  intro h hlen
  rcases h with _ | ⟨a, _ | ⟨b, _ | ⟨c, t⟩⟩⟩
  · rfl
  · rfl
  · rfl
  · simp only [List.length_cons] at hlen
    omega

/-- Witness for C7: a two-bucket histogram yields the empty mapping. -/
theorem claim_C7_witness :
    parse_histogram [⟨some "0.6"⟩, ⟨some "0.3"⟩] = Except.ok [] :=
  claim_C7.1 [⟨some "0.6"⟩, ⟨some "0.3"⟩] (by decide)

/-! ## Lab-metrics opportunities (`fetch_psi.py`, `parse_opportunities`) -/

/-- The `details` sub-dict of a Lighthouse audit, as read by
`parse_opportunities` (`overallSavingsMs`, `overallSavingsBytes`; an
absent `details` key behaves as the empty dict, i.e. both fields absent). -/
structure AuditDetails where
  overallSavingsMs : Option ℚ
  overallSavingsBytes : Option ℚ
deriving DecidableEq

/-- One Lighthouse audit, restricted to the fields `parse_opportunities`
reads. -/
structure Audit where
  score : Option ℚ
  title : Option String
  description : Option String
  details : AuditDetails
deriving DecidableEq

/-- One entry of `categories.performance.auditRefs`. -/
structure AuditRef where
  id : String
  group : Option String
deriving DecidableEq

/-- A Lighthouse result, restricted to what `parse_opportunities` reads:
the `audits` dict in insertion order and the performance `auditRefs`
(absent `categories` / `performance` / `auditRefs` keys behave as the
empty list). -/
structure LighthouseResult where
  audits : List (String × Audit)
  auditRefs : List AuditRef
deriving DecidableEq

/-- One normalized opportunity record. -/
structure Opp where
  id : String
  title : String
  description : String
  savings_ms : Option ℤ
  savings_bytes : Option ℚ
deriving DecidableEq

/-- Membership of an audit id in the `opportunity_ids` set: the id of some
`auditRefs` entry whose `group` is `"load-opportunities"`. -/
def isOpportunityId (lr : LighthouseResult) (aid : String) : Bool :=
  lr.auditRefs.any (fun ref => ref.id == aid && ref.group == some "load-opportunities")

/-- Build one opportunity record from an audit (the body of the loop in
`parse_opportunities`): title/description default to `""`,
`savings_ms = round(overallSavingsMs)` when present, `savings_bytes`
copied verbatim when present. -/
def mkOpp (aid : String) (a : Audit) : Opp :=
  ⟨aid, a.title.getD "", a.description.getD "",
    a.details.overallSavingsMs.map pyRoundInt, a.details.overallSavingsBytes⟩

/-- The opportunity list before sorting, in provider (dict-insertion)
order: audits whose id is in the load-opportunities group and whose score
is present and `< 0.9`. -/
def preOpportunities (lr : LighthouseResult) : List Opp :=
  lr.audits.filterMap (fun pair =>
    if isOpportunityId lr pair.1 then
      match pair.2.score with
      | none => none
      | some s => if s < 9/10 then some (mkOpp pair.1 pair.2) else none
    else none)

/-- Sort key: `x.get("savings_ms", 0)`. -/
def oppKey (o : Opp) : ℤ :=
  o.savings_ms.getD 0

/-- Comparator for the descending stable sort
(`opportunities.sort(key=..., reverse=True)` in the source): `a` may stay
before `b` iff `a`'s key is at least `b`'s. -/
def oppGE (a b : Opp) : Prop :=
  oppKey b ≤ oppKey a

instance : DecidableRel oppGE :=
  fun a b => inferInstanceAs (Decidable (oppKey b ≤ oppKey a))

instance : IsTotal Opp oppGE :=
  ⟨fun a b => (le_total (oppKey b) (oppKey a)).imp id id⟩

instance : IsTrans Opp oppGE :=
  ⟨fun _ _ _ hab hbc => le_trans hbc hab⟩

/-- `parse_opportunities` of `fetch_psi.py`: filter, then sort by savings
descending.  Python's `list.sort` is a stable sort; it is embedded as the
(stable) insertion sort w.r.t. `oppGE`. -/
def parse_opportunities (lr : LighthouseResult) : List Opp :=
  (preOpportunities lr).insertionSort oppGE

theorem filter_key_insertionSort (l : List Opp) (k : ℤ) :
    ((l.insertionSort oppGE).filter (fun o => oppKey o == k)) =
      l.filter (fun o => oppKey o == k) := by
  have hpw : (l.filter (fun o => oppKey o == k)).Pairwise oppGE := by
    apply List.pairwise_of_forall_mem_list
    intro a ha b hb
    have ha2 := (List.mem_filter.mp ha).2
    have hb2 := (List.mem_filter.mp hb).2
    have ha3 : oppKey a = k := by simpa using ha2
    have hb3 : oppKey b = k := by simpa using hb2
    unfold oppGE
    rw [ha3, hb3]
  have hsub : List.Sublist (l.filter (fun o => oppKey o == k)) (l.insertionSort oppGE) :=
    List.sublist_insertionSort hpw (List.filter_sublist l)
  have hsub2 : List.Sublist (l.filter (fun o => oppKey o == k))
      ((l.insertionSort oppGE).filter (fun o => oppKey o == k)) := by
    have h := hsub.filter (fun o => oppKey o == k)
    rwa [List.filter_eq_self.mpr (fun a ha => (List.mem_filter.mp ha).2)] at h
  have hlen : ((l.insertionSort oppGE).filter (fun o => oppKey o == k)).length =
      (l.filter (fun o => oppKey o == k)).length :=
    ((List.perm_insertionSort oppGE l).filter _).length_eq
  exact (hsub2.eq_of_length hlen.symm).symm

/-- Claim C3: Every entry of the normalized opportunity list comes from an
audit in the load-opportunities group whose score is present and `< 0.9`
(audits with no score or score `≥ 0.9` never appear); the list is sorted
descending by `savings_ms`; and ties keep the original provider order (the
entries with any fixed key value appear exactly as in the unsorted,
provider-ordered selection). -/
theorem claim_C3 (lr : LighthouseResult) :
    (∀ o ∈ parse_opportunities lr, ∃ aid a, (aid, a) ∈ lr.audits ∧
        isOpportunityId lr aid = true ∧
        ∃ s : ℚ, a.score = some s ∧ s < 9/10 ∧ o = mkOpp aid a) ∧
    (parse_opportunities lr).Pairwise oppGE ∧
    (∀ k : ℤ, (parse_opportunities lr).filter (fun o => oppKey o == k) =
        (preOpportunities lr).filter (fun o => oppKey o == k)) := by
  refine ⟨?_, List.sorted_insertionSort oppGE _, fun k => filter_key_insertionSort _ k⟩
  intro o ho
  have ho2 : o ∈ preOpportunities lr := (List.mem_insertionSort oppGE).mp ho
  obtain ⟨⟨aid, a⟩, hmem, hf⟩ := List.mem_filterMap.mp ho2
  refine ⟨aid, a, hmem, ?_⟩
  by_cases hid : isOpportunityId lr aid
  · rw [if_pos hid] at hf
    split at hf
    · exact absurd hf (by simp)
    · rename_i s hsc
      split at hf
      · rename_i hlt
        exact ⟨hid, s, hsc, hlt, (Option.some.inj hf).symm⟩
      · exact absurd hf (by simp)
  · rw [if_neg hid] at hf
    exact absurd hf (by simp)

/-- Witness for C3: a one-audit Lighthouse result whose single
load-opportunity audit (score 0.5, savings 150 ms) is extracted. -/
theorem claim_C3_witness :
    ∃ aid a,
      (aid, a) ∈ ([("render-blocking-resources",
          (⟨some (1/2), some "Eliminate render-blocking resources", some "desc",
            ⟨some 150, some 1000⟩⟩ : Audit))] : List (String × Audit)) ∧
      isOpportunityId
        ⟨[("render-blocking-resources",
            ⟨some (1/2), some "Eliminate render-blocking resources", some "desc",
              ⟨some 150, some 1000⟩⟩)],
          [⟨"render-blocking-resources", some "load-opportunities"⟩]⟩ aid = true ∧
      ∃ s : ℚ, a.score = some s ∧ s < 9/10 ∧
        mkOpp "render-blocking-resources"
          ⟨some (1/2), some "Eliminate render-blocking resources", some "desc",
            ⟨some 150, some 1000⟩⟩ = mkOpp aid a := by
  exact (claim_C3
    ⟨[("render-blocking-resources",
        ⟨some (1/2), some "Eliminate render-blocking resources", some "desc",
          ⟨some 150, some 1000⟩⟩)],
      [⟨"render-blocking-resources", some "load-opportunities"⟩]⟩).1
    (mkOpp "render-blocking-resources"
      ⟨some (1/2), some "Eliminate render-blocking resources", some "desc",
        ⟨some 150, some 1000⟩⟩)
    (by with_unfolding_all decide)

/-! ## Network capture (`capture_network.py`) -/

/-- The `RequestData` dataclass of `capture_network.py`. -/
structure RequestData where
  url : String
  resource_type : String
  start_time : ℚ
  duration_ms : ℚ
  size_bytes : ℤ
  status : ℤ
  from_cache : Bool
deriving DecidableEq

/-- The `type_map` of `get_resource_type`. -/
def type_map : List (String × String) :=
  [("document", "document"), ("script", "script"), ("stylesheet", "stylesheet"),
   ("image", "image"), ("font", "font"), ("xhr", "xhr"), ("fetch", "xhr"),
   ("media", "media"), ("websocket", "websocket"), ("manifest", "other"),
   ("other", "other")]

/-- `get_resource_type` of `capture_network.py`. -/
def get_resource_type (rt : String) : String :=
  (lookupStr rt type_map).getD "other"

/-- Model of Python's `int(s)` on the content-length header strings the
capture reads: optional sign followed by digits; `none` is a
`ValueError`. -/
def parseIntStr (s : String) : Option ℤ :=
  let core : ℤ → List Char → Option ℤ := fun sgn cs =>
    if cs.isEmpty then none
    else if cs.all Char.isDigit then some (sgn * (digitsToNat cs : ℤ))
    else none
  match s.data with
  | [] => none
  | c :: t =>
    if c = '-' then core (-1) t
    else if c = '+' then core 1 t
    else core 1 (c :: t)

/-- One request-lifecycle event, in arrival order: `request` and
`response` are the Playwright page callbacks; `timing` is one
resource-timing entry applied after load. -/
inductive NetEvent where
  | request : String → String → NetEvent
  | response : String → ℤ → Bool → Option String → NetEvent
  | timing : String → ℚ → ℚ → ℤ → ℤ → NetEvent

/-- Dict assignment `m[k] = v`: overwrite in place when the key exists
(Python dicts keep the original insertion position), else append. -/
def dictInsert (m : List (String × RequestData)) (k : String) (v : RequestData) :
    List (String × RequestData) :=
  match m with
  | [] => [(k, v)]
  | p :: rest => if p.1 = k then (p.1, v) :: rest else p :: dictInsert rest k v

/-- `if k in m: mutate m[k]`: map the stored record when the key exists,
leave the dict unchanged otherwise. -/
def dictUpdate (m : List (String × RequestData)) (k : String)
    (f : RequestData → RequestData) : List (String × RequestData) :=
  match m with
  | [] => []
  | p :: rest => if p.1 = k then (p.1, f p.2) :: rest else p :: dictUpdate rest k f

/-- `on_request`: a fresh `RequestData` with defaulted fields. -/
def emptyReq (url rtype : String) : RequestData :=
  ⟨url, rtype, 0, 0, 0, 0, false⟩

/-- `on_response`: set status and cache flag; take the size from the
`content-length` header when the header is present, non-empty and parses
as an int. -/
def applyResponse (status : ℤ) (sw : Bool) (cl : Option String) (r : RequestData) :
    RequestData :=
  let base : RequestData :=
    ⟨r.url, r.resource_type, r.start_time, r.duration_ms, r.size_bytes, status, sw⟩
  match cl with
  | none => base
  | some s =>
    if s = "" then base
    else
      match parseIntStr s with
      | some n =>
        ⟨r.url, r.resource_type, r.start_time, r.duration_ms, n, status, sw⟩
      | none => base

/-- The resource-timing update loop body: set start/duration; take
`transfer_size` when positive, else `encoded_body_size` when positive,
else keep the current size. -/
def applyTiming (st dur : ℚ) (ts ebs : ℤ) (r : RequestData) : RequestData :=
  let sz := if 0 < ts then ts else if 0 < ebs then ebs else r.size_bytes
  ⟨r.url, r.resource_type, st, dur, sz, r.status, r.from_cache⟩

/-- Apply one event to the `request_map`. -/
def stepEvent (m : List (String × RequestData)) : NetEvent → List (String × RequestData)
  | NetEvent.request url rt => dictInsert m url (emptyReq url (get_resource_type rt))
  | NetEvent.response url status sw cl => dictUpdate m url (applyResponse status sw cl)
  | NetEvent.timing url st dur ts ebs => dictUpdate m url (applyTiming st dur ts ebs)

/-- The `request_map` after a full capture: all events applied in arrival
order to the initially empty dict. -/
def processEvents (evs : List NetEvent) : List (String × RequestData) :=
  evs.foldl stepEvent []

/-- `requests_list = list(request_map.values())`. -/
def valuesOf (m : List (String × RequestData)) : List RequestData :=
  m.map Prod.snd

/-- Add one request to the by-type summary: bump the bucket in place, or
append a fresh bucket (`count`, `bytes`). -/
def bumpType (bt : List (String × ℕ × ℤ)) (t : String) (sz : ℤ) :
    List (String × ℕ × ℤ) :=
  match bt with
  | [] => [(t, 1, sz)]
  | e :: rest =>
    if e.1 = t then (e.1, e.2.1 + 1, e.2.2 + sz) :: rest
    else e :: bumpType rest t sz

/-- The summary loop of `capture_network`: fold every request into
(`by_type`, `total_bytes`). -/
def buildSummaryState (rs : List RequestData) : List (String × ℕ × ℤ) × ℤ :=
  rs.foldl (fun acc r => (bumpType acc.1 r.resource_type r.size_bytes,
    acc.2 + r.size_bytes)) ([], 0)

/-- Total of the per-bucket counts. -/
def sumCounts (bt : List (String × ℕ × ℤ)) : ℕ :=
  (bt.map (fun e => e.2.1)).sum

/-- Total of the per-bucket byte sums. -/
def sumBytes (bt : List (String × ℕ × ℤ)) : ℤ :=
  (bt.map (fun e => e.2.2)).sum

/-- Descending comparator on `size_bytes` (the `sorted(..., key=lambda r:
r.size_bytes, reverse=True)` of the source, a stable sort, embedded as
insertion sort). -/
def sizeGE (a b : RequestData) : Prop :=
  b.size_bytes ≤ a.size_bytes

instance : DecidableRel sizeGE :=
  fun a b => inferInstanceAs (Decidable (b.size_bytes ≤ a.size_bytes))

instance : IsTotal RequestData sizeGE :=
  ⟨fun a b => (le_total b.size_bytes a.size_bytes).imp id id⟩

instance : IsTrans RequestData sizeGE :=
  ⟨fun _ _ _ hab hbc => le_trans hbc hab⟩

/-- The `largest_resources` selection of `capture_network.py`: sort all
captured records descending by size, take the first 10, and keep only
positive-size records (`if r.size_bytes > 0` in the comprehension).  The
script then projects each record to a display dict; the projection is
omitted here. -/
def largest_resources (rs : List RequestData) : List RequestData :=
  ((rs.insertionSort sizeGE).take 10).filter (fun r => decide (0 < r.size_bytes))

theorem take_filter_of_sorted (l : List RequestData) (hl : l.Pairwise sizeGE) (n : ℕ) :
    (l.take n).filter (fun r => decide (0 < r.size_bytes)) =
      (l.filter (fun r => decide (0 < r.size_bytes))).take n := by
  induction l generalizing n with
  | nil => simp
  | cons a t ih =>
    have ha : ∀ b ∈ t, sizeGE a b := (List.pairwise_cons.mp hl).1
    have ht : t.Pairwise sizeGE := (List.pairwise_cons.mp hl).2
    cases n with
    | zero => simp
    | succ m =>
      by_cases hpa : 0 < a.size_bytes
      · have hpa2 : decide (0 < a.size_bytes) = true := by simpa using hpa
        simp only [List.take_succ_cons, List.filter_cons, hpa2, if_true]
        rw [ih ht m]
      · have hz : a.size_bytes ≤ 0 := not_lt.mp hpa
        have hall : ∀ b ∈ t, ¬ (0 < b.size_bytes) := by
          intro b hb
          have hba : b.size_bytes ≤ a.size_bytes := ha b hb
          omega
        have hflt : t.filter (fun r => decide (0 < r.size_bytes)) = [] :=
          List.filter_eq_nil_iff.mpr (fun b hb => by simpa using hall b hb)
        have hflt2 : (t.take m).filter (fun r => decide (0 < r.size_bytes)) = [] :=
          List.filter_eq_nil_iff.mpr
            (fun b hb => by simpa using hall b (List.take_subset m t hb))
        have hpa2 : decide (0 < a.size_bytes) = false := by simpa using hpa
        simp [List.take_succ_cons, List.filter_cons, hpa2, hflt, hflt2]

/-- Claim C4: For every list of captured records, `largest_resources` has
length at most 10, every entry has a positive size, and it equals the
descending-by-size sorted record list with non-positive sizes excluded
and then truncated to the first 10; when all record sizes are
non-negative (sizes are byte counts) "excluding zero-size records then
taking the first 10" gives the same list. -/
theorem claim_C4 (rs : List RequestData) :
    (largest_resources rs).length ≤ 10 ∧
    (∀ r ∈ largest_resources rs, 0 < r.size_bytes) ∧
    largest_resources rs =
      ((rs.insertionSort sizeGE).filter (fun r => decide (0 < r.size_bytes))).take 10 ∧
    ((∀ r ∈ rs, 0 ≤ r.size_bytes) →
      largest_resources rs =
        ((rs.insertionSort sizeGE).filter (fun r => decide (¬ r.size_bytes = 0))).take 10) := by
  have hsorted : (rs.insertionSort sizeGE).Pairwise sizeGE :=
    List.sorted_insertionSort sizeGE rs
  have heq := take_filter_of_sorted (rs.insertionSort sizeGE) hsorted 10
  refine ⟨?_, ?_, heq, ?_⟩
  · exact le_trans (List.length_filter_le _ _) (List.length_take_le 10 _)
  · intro r hr
    have := (List.mem_filter.mp hr).2
    simpa using this
  · intro hnn
    have hcongr : (rs.insertionSort sizeGE).filter (fun r => decide (0 < r.size_bytes)) =
        (rs.insertionSort sizeGE).filter (fun r => decide (¬ r.size_bytes = 0)) := by
      apply List.filter_congr
      intro r hr
      have hmem : r ∈ rs := (List.mem_insertionSort sizeGE).mp hr
      have h0 : 0 ≤ r.size_bytes := hnn r hmem
      by_cases hzero : r.size_bytes = 0
      · simp [hzero]
      · have : 0 < r.size_bytes := lt_of_le_of_ne h0 (Ne.symm hzero)
        simp [hzero, this]
    rw [largest_resources, take_filter_of_sorted _ hsorted, hcongr]

/-- Witness for C4: a two-record capture (one 5-byte script, one
zero-byte image); the non-negative-sizes hypothesis is discharged
concretely. -/
theorem claim_C4_witness :
    largest_resources
        [⟨"https://a/x.js", "script", 0, 0, 5, 200, false⟩,
         ⟨"https://a/z.png", "image", 0, 0, 0, 200, false⟩] =
      ((([⟨"https://a/x.js", "script", 0, 0, 5, 200, false⟩,
          ⟨"https://a/z.png", "image", 0, 0, 0, 200, false⟩] :
            List RequestData).insertionSort sizeGE).filter
        (fun r => decide (¬ r.size_bytes = 0))).take 10 :=
  (claim_C4 _).2.2.2 (by decide)

theorem bumpType_sumBytes (bt : List (String × ℕ × ℤ)) (t : String) (sz : ℤ) :
    sumBytes (bumpType bt t sz) = sumBytes bt + sz := by
  induction bt with
  | nil => simp [bumpType, sumBytes]
  | cons e rest ih =>
    simp only [bumpType]
    split
    · simp [sumBytes]
      ring
    · simp only [sumBytes, List.map_cons, List.sum_cons] at ih ⊢
      rw [ih]
      ring

theorem bumpType_sumCounts (bt : List (String × ℕ × ℤ)) (t : String) (sz : ℤ) :
    sumCounts (bumpType bt t sz) = sumCounts bt + 1 := by
  induction bt with
  | nil => simp [bumpType, sumCounts]
  | cons e rest ih =>
    simp only [bumpType]
    split
    · simp [sumCounts]
      ring
    · simp only [sumCounts, List.map_cons, List.sum_cons] at ih ⊢
      rw [ih]
      ring

theorem foldSummary_bytes (rs : List RequestData) :
    ∀ (bt : List (String × ℕ × ℤ)) (tot : ℤ),
      sumBytes ((rs.foldl (fun acc r => (bumpType acc.1 r.resource_type r.size_bytes,
          acc.2 + r.size_bytes)) (bt, tot)).1) - sumBytes bt =
        (rs.foldl (fun acc r => (bumpType acc.1 r.resource_type r.size_bytes,
          acc.2 + r.size_bytes)) (bt, tot)).2 - tot := by
  induction rs with
  | nil => intro bt tot; simp
  | cons r t ih =>
    intro bt tot
    simp only [List.foldl_cons]
    have h := ih (bumpType bt r.resource_type r.size_bytes) (tot + r.size_bytes)
    rw [bumpType_sumBytes] at h
    omega

theorem foldSummary_counts (rs : List RequestData) :
    ∀ (bt : List (String × ℕ × ℤ)) (tot : ℤ),
      sumCounts ((rs.foldl (fun acc r => (bumpType acc.1 r.resource_type r.size_bytes,
          acc.2 + r.size_bytes)) (bt, tot)).1) = sumCounts bt + rs.length := by
  induction rs with
  | nil => intro bt tot; simp
  | cons r t ih =>
    intro bt tot
    simp only [List.foldl_cons, List.length_cons]
    rw [ih (bumpType bt r.resource_type r.size_bytes) (tot + r.size_bytes),
      bumpType_sumCounts]
    omega

theorem mem_keys_dictInsert {m : List (String × RequestData)} {k x : String}
    {v : RequestData} (h : x ∈ (dictInsert m k v).map Prod.fst) :
    x ∈ m.map Prod.fst ∨ x = k := by
  induction m with
  | nil =>
    simp only [dictInsert, List.map_cons, List.map_nil] at h
    exact Or.inr (by simpa using h)
  | cons p rest ih =>
    simp only [dictInsert] at h
    split at h
    · rw [List.map_cons] at h
      rcases List.mem_cons.mp h with h1 | h1
      · exact Or.inl (by rw [List.map_cons]; exact List.mem_cons.mpr (Or.inl h1))
      · exact Or.inl (by rw [List.map_cons]; exact List.mem_cons.mpr (Or.inr h1))
    · rw [List.map_cons] at h
      rcases List.mem_cons.mp h with h1 | h1
      · exact Or.inl (by rw [List.map_cons]; exact List.mem_cons.mpr (Or.inl h1))
      · rcases ih h1 with h2 | h2
        · exact Or.inl (by rw [List.map_cons]; exact List.mem_cons.mpr (Or.inr h2))
        · exact Or.inr h2

theorem keys_dictInsert_nodup {m : List (String × RequestData)} {k : String}
    {v : RequestData} (h : (m.map Prod.fst).Nodup) :
    ((dictInsert m k v).map Prod.fst).Nodup := by
  induction m with
  | nil => simp [dictInsert]
  | cons p rest ih =>
    have hcons : (p.1 :: rest.map Prod.fst).Nodup := by
      rw [List.map_cons] at h
      exact h
    simp only [dictInsert]
    split
    · rw [List.map_cons]
      exact hcons
    · rename_i hne
      rw [List.map_cons, List.nodup_cons]
      refine ⟨?_, ih (List.nodup_cons.mp hcons).2⟩
      intro hmem
      rcases mem_keys_dictInsert hmem with h4 | h4
      · exact (List.nodup_cons.mp hcons).1 h4
      · exact hne h4

theorem keys_dictUpdate {m : List (String × RequestData)} {k : String}
    {f : RequestData → RequestData} :
    (dictUpdate m k f).map Prod.fst = m.map Prod.fst := by
  induction m with
  | nil => simp [dictUpdate]
  | cons p rest ih =>
    simp only [dictUpdate]
    split
    · simp
    · simpa using ih

theorem stepEvent_keys_nodup {m : List (String × RequestData)} {e : NetEvent}
    (h : (m.map Prod.fst).Nodup) : ((stepEvent m e).map Prod.fst).Nodup := by
  cases e with
  | request url rt => exact keys_dictInsert_nodup h
  | response url status sw cl => rw [stepEvent, keys_dictUpdate]; exact h
  | timing url st dur ts ebs => rw [stepEvent, keys_dictUpdate]; exact h

theorem processEvents_keys_nodup (evs : List NetEvent) :
    ∀ m : List (String × RequestData), (m.map Prod.fst).Nodup →
      (((evs.foldl stepEvent m)).map Prod.fst).Nodup := by
  induction evs with
  | nil => intro m h; simpa using h
  | cons e t ih =>
    intro m h
    simp only [List.foldl_cons]
    exact ih _ (stepEvent_keys_nodup h)

/-- Claim C5: For every sequence of request/response/timing events the
`request_map` keeps one logical entry per resource URL (its keys are
pairwise distinct), and the resulting summary satisfies: total transfer
bytes = sum of the per-type byte sums, and total requests = sum of the
per-type counts. -/
theorem claim_C5 (evs : List NetEvent) :
    ((processEvents evs).map Prod.fst).Nodup ∧
    (buildSummaryState (valuesOf (processEvents evs))).2 =
      sumBytes (buildSummaryState (valuesOf (processEvents evs))).1 ∧
    (valuesOf (processEvents evs)).length =
      sumCounts (buildSummaryState (valuesOf (processEvents evs))).1 := by
  refine ⟨processEvents_keys_nodup evs [] (by simp), ?_, ?_⟩
  · have hnil : sumBytes [] = 0 := rfl
    have h := foldSummary_bytes (valuesOf (processEvents evs)) [] 0
    rw [hnil] at h
    unfold buildSummaryState
    omega
  · have hnil : sumCounts [] = 0 := rfl
    have h := foldSummary_counts (valuesOf (processEvents evs)) [] 0
    rw [hnil] at h
    unfold buildSummaryState
    omega

/-! ## Excel report builder (`generate_excel.py`) -/

/-- A written cell value: openpyxl receives either a string or a number.
The empty string `Cell.str ""` is an "empty cell". -/
inductive Cell where
  | str : String → Cell
  | num : ℚ → Cell
deriving DecidableEq

/-- Characters removed by `sanitize_for_excel`'s regex
(`\x00-\x08`, `\x0B-\x0C`, `\x0E-\x1F`) and the explicit
`￾`/`￿` replacements. -/
def illegalChar (c : Char) : Bool :=
  (c.toNat ≤ 8) || (c.toNat == 11) || (c.toNat == 12) ||
    (14 ≤ c.toNat && c.toNat ≤ 31) || (c.toNat == 0xFFFE) || (c.toNat == 0xFFFF)

/-- Index of the last space in a character list (`str.rfind(' ')`), or
`none` when there is no space (Python returns `-1`, which then fails the
`> max_length * 0.8` comparison). -/
def lastSpaceIdx (cs : List Char) : Option ℕ :=
  (cs.foldl (fun acc c => (if c = ' ' then some acc.2 else acc.1, acc.2 + 1))
    ((none : Option ℕ), 0)).1

/-- `sanitize_for_excel` of `generate_excel.py` on string content
(`str(value)` of the already-string cell values modelled here): strip
illegal characters, then truncate with the last-space heuristic when the
content exceeds 32767 characters.  `32767 * 0.8 = 26213.6`, so the
integer comparison `last_space > max_length * 0.8` is `26213 < i`. -/
def sanitize_for_excel (s : String) : String :=
  let content := String.mk (s.data.filter (fun c => !illegalChar c))
  if 32767 < content.length then
    let truncated := String.mk (content.data.take (32767 - 20))
    match lastSpaceIdx truncated.data with
    | some i =>
      if 26213 < i then String.mk (truncated.data.take i) ++ "... [truncated]"
      else truncated ++ "... [truncated]"
    | none => truncated ++ "... [truncated]"
  else content

/-- A lab metric dict as stored under `core_web_vitals` (only the fields
the sheet builders read). -/
structure MetricDict where
  value : Option ℚ
  unit : Option String
  status : Option String
deriving DecidableEq

/-- An opportunity dict as stored under `opportunities`. -/
structure OppDict where
  title : Option String
  description : Option String
  savings_ms : Option ℚ
  savings_bytes : Option ℚ
deriving DecidableEq

/-- The page- or origin-level field-metrics mapping: key ↦ value, where a
stored `none` is a JSON `null` under a present key. -/
abbrev FieldMap : Type :=
  List (String × Option ℚ)

/-- One strategy result dict, restricted to the fields the report builder
reads.  `field_metrics` / `origin_field_metrics` are `none` when the key
is absent or `null` (the builder treats both alike via
`strategy_data.get("field_metrics", {}) or {}`). -/
structure StrategyData where
  performance_score : Option ℚ
  core_web_vitals : List (String × MetricDict)
  field_metrics : Option FieldMap
  origin_field_metrics : Option FieldMap
  opportunities : List OppDict
deriving DecidableEq

/-- One entry of `psi_results`. -/
structure PsiResult where
  url : Option String
  strategies : List (String × StrategyData)
deriving DecidableEq

/-- One `by_type` bucket as read by the network sheet. -/
structure ByTypeEntry where
  count : Option ℚ
  bytes : Option ℚ
deriving DecidableEq

/-- One `largest_resources` entry as read by the network sheet. -/
structure ResourceEntry where
  url : Option String
  size_bytes : Option ℚ
deriving DecidableEq

/-- The nested `summary` dict of a network result. -/
structure NetSummaryDict where
  by_type : List (String × ByTypeEntry)
  total_requests : Option ℚ
  total_transfer_bytes : Option ℚ
deriving DecidableEq

/-- One entry of `network_results` (both the flat and the nested `summary`
formats are read, with Python-`or` fallbacks). -/
structure NetworkResult where
  url : Option String
  summary : Option NetSummaryDict
  by_type : Option (List (String × ByTypeEntry))
  total_requests : Option ℚ
  total_transfer_bytes : Option ℚ
  largest_resources : Option (List ResourceEntry)
deriving DecidableEq

/-- The collected-data document handed to `generate_excel`. -/
structure ExcelData where
  psi_results : List PsiResult
  network_results : List NetworkResult
deriving DecidableEq

/-- Python `str.capitalize()` (ASCII): first character upper-cased, the
rest lower-cased. -/
def pyCapitalize (s : String) : String :=
  match s.data with
  | [] => ""
  | c :: t => String.mk (c.toUpper :: t.map Char.toLower)

/-- A strategy missing from the `strategies` dict behaves as the empty
dict: every field read defaults. -/
def defaultStrategy : StrategyData :=
  ⟨none, [], none, none, []⟩

/-- A score cell: the raw `performance_score` value, or `""` when the key
is absent. -/
def scoreCell (v : Option ℚ) : Cell :=
  match v with
  | some q => Cell.num q
  | none => Cell.str ""

/-- `_get_status_text` of `generate_excel.py`. -/
def get_status_text (m : Option MetricDict) : String :=
  match m with
  | none => ""
  | some md =>
    match md.status with
    | none => ""
    | some s =>
      if s = "good" then "Good"
      else if s = "needs_improvement" then "Needs Improvement"
      else if s = "poor" then "Poor"
      else ""

/-- `_format_metric` of `generate_excel.py`: `""` for an absent/empty
metric dict or an absent value, else the printed value followed by the
unit. -/
def format_metric (m : Option MetricDict) : String :=
  match m with
  | none => ""
  | some md =>
    match md.value with
    | none => ""
    | some v => numStr v ++ md.unit.getD ""

/-- `_format_field_metric` of `generate_excel.py`: `"N/A"` when the field
mapping is empty/absent, the key is missing, or the stored value is
`null`; otherwise the printed value followed by the unit. -/
def format_field_metric (field : List (String × Option ℚ)) (key unit : String) : String :=
  if field.isEmpty then "N/A"
  else
    match lookupStr key field with
    | none => "N/A"
    | some none => "N/A"
    | some (some v) => numStr v ++ unit

/-- Python list indexing `l[0]`, which raises `IndexError` on an empty
list. -/
def listIdx0 {α : Type} (l : List α) : Except String α :=
  match l with
  | [] => Except.error "IndexError"
  | a :: _ => Except.ok a

/-- Python list indexing `l[-1]`. -/
def lastElem {α : Type} : List α → Except String α
  | [] => Except.error "IndexError"
  | [a] => Except.ok a
  | _ :: b :: t => lastElem (b :: t)

/-- Python `s.split('/')` on the character list: always returns at least
one (possibly empty) segment. -/
def splitSlash : List Char → List (List Char)
  | [] => [[]]
  | c :: cs =>
    let r := splitSlash cs
    if c = '/' then [] :: r
    else
      match r with
      | [] => [[c]]
      | h :: t => (c :: h) :: t

/-- `mapE f l`: sequence a fallible row builder over a list, stopping at
the first error (the Python `for` loop would have raised there). -/
def mapE {α β : Type} (f : α → Except String β) : List α → Except String (List β)
  | [] => Except.ok []
  | a :: t =>
    match f a with
    | Except.error e => Except.error e
    | Except.ok b =>
      match mapE f t with
      | Except.error e => Except.error e
      | Except.ok bs => Except.ok (b :: bs)

/-- The top-issue computation of the Summary sheet:
`mobile_opps[0].get("title", "") if mobile_opps else ""`. -/
def topIssueE (opps : List OppDict) : Except String String :=
  if opps.isEmpty then Except.ok ""
  else
    match listIdx0 opps with
    | Except.error e => Except.error e
    | Except.ok o => Except.ok (o.title.getD "")

/-- One Summary-sheet data row (`create_summary_sheet` loop body). -/
def summaryRow (psi : PsiResult) : Except String (List Cell) :=
  let url := psi.url.getD ""
  let mobile := (lookupStr "mobile" psi.strategies).getD defaultStrategy
  let desktop := (lookupStr "desktop" psi.strategies).getD defaultStrategy
  let mobile_cwv := mobile.core_web_vitals
  match topIssueE mobile.opportunities with
  | Except.error e => Except.error e
  | Except.ok top_issue =>
    Except.ok
      [Cell.str (sanitize_for_excel url),
       scoreCell mobile.performance_score,
       scoreCell desktop.performance_score,
       Cell.str (get_status_text (lookupStr "lcp" mobile_cwv)),
       Cell.str (get_status_text (lookupStr "inp" mobile_cwv)),
       Cell.str (get_status_text (lookupStr "cls" mobile_cwv)),
       Cell.str (sanitize_for_excel top_issue)]

/-- One Core Web Vitals sheet data row (`create_core_web_vitals_sheet`
inner loop body). -/
def cwvRow (url strategy_name : String) (sd : StrategyData) : List Cell :=
  let cwv := sd.core_web_vitals
  let field := sd.field_metrics.getD []
  [Cell.str (sanitize_for_excel url),
   Cell.str (pyCapitalize strategy_name),
   scoreCell sd.performance_score,
   Cell.str (format_metric (lookupStr "lcp" cwv)),
   Cell.str (format_field_metric field "lcp_p75" "s"),
   Cell.str (format_metric (lookupStr "inp" cwv)),
   Cell.str (format_field_metric field "inp_p75" "ms"),
   Cell.str (format_metric (lookupStr "cls" cwv)),
   Cell.str (format_field_metric field "cls_p75" ""),
   Cell.str (format_metric (lookupStr "fcp" cwv)),
   Cell.str (format_metric (lookupStr "ttfb" cwv)),
   Cell.str (format_metric (lookupStr "tbt" cwv))]

/-- The Core Web Vitals sheet: one row per (URL, strategy) pair present,
in document order. -/
def cwvRows (d : ExcelData) : List (List Cell) :=
  d.psi_results.flatMap (fun psi =>
    psi.strategies.map (fun p => cwvRow (psi.url.getD "") p.1 p.2))

/-- `f"{x:.0f}"`: fixed-point formatting with zero decimals (round half
to even). -/
def fmt0f (q : ℚ) : String :=
  intStr (pyRoundInt q)

/-- The largest-resource label of the Network Analysis sheet:
basename (last `/`-segment, truncated to 30 chars) and rounded KB. -/
def largestNameE (largest : List ResourceEntry) : Except String String :=
  if largest.isEmpty then Except.ok ""
  else
    match listIdx0 largest with
    | Except.error e => Except.error e
    | Except.ok resource =>
      match lastElem (splitSlash (resource.url.getD "").data) with
      | Except.error e => Except.error e
      | Except.ok seg =>
        Except.ok (String.mk (seg.take 30) ++ " (" ++
          fmt0f ((resource.size_bytes.getD 0) / 1024) ++ "KB)")

/-- One Network Analysis sheet data row (`create_network_analysis_sheet`
loop body), with the source's Python-`or` fallbacks from the flat fields
to the nested `summary` dict (a falsy flat value — absent, null, `0` or
empty dict — falls back). -/
def networkRow (nr : NetworkResult) : Except String (List Cell) :=
  let url := nr.url.getD ""
  let summaryD := nr.summary.getD ⟨[], none, none⟩
  let by_type :=
    match nr.by_type with
    | some bt => if bt.isEmpty then summaryD.by_type else bt
    | none => summaryD.by_type
  let total_requests : ℚ :=
    match nr.total_requests with
    | some v => if v = 0 then (summaryD.total_requests).getD 0 else v
    | none => (summaryD.total_requests).getD 0
  let total_bytes : ℚ :=
    match nr.total_transfer_bytes with
    | some v => if v = 0 then (summaryD.total_transfer_bytes).getD 0 else v
    | none => (summaryD.total_transfer_bytes).getD 0
  let scripts := (lookupStr "script" by_type).getD ⟨none, none⟩
  let images := (lookupStr "image" by_type).getD ⟨none, none⟩
  let css := (lookupStr "stylesheet" by_type).getD ⟨none, none⟩
  let fonts := (lookupStr "font" by_type).getD ⟨none, none⟩
  match largestNameE (nr.largest_resources.getD []) with
  | Except.error e => Except.error e
  | Except.ok largest_name =>
    Except.ok
      [Cell.str (sanitize_for_excel url),
       Cell.num total_requests,
       Cell.num (pyRound (total_bytes / 1024 / 1024) 2),
       Cell.num (scripts.count.getD 0),
       Cell.num (pyRound ((scripts.bytes.getD 0) / 1024) 0),
       Cell.num (images.count.getD 0),
       Cell.num (pyRound ((images.bytes.getD 0) / 1024) 0),
       Cell.num (css.count.getD 0),
       Cell.num (pyRound ((css.bytes.getD 0) / 1024) 0),
       Cell.num (fonts.count.getD 0),
       Cell.num (pyRound ((fonts.bytes.getD 0) / 1024) 0),
       Cell.str (sanitize_for_excel largest_name)]

/-- One Opportunities sheet data row (`create_opportunities_sheet` inner
loop body). -/
def oppRow (url strategy_name : String) (opp : OppDict) : List Cell :=
  let savings_bytes := opp.savings_bytes.getD 0
  let savings_kb : Cell :=
    if savings_bytes = 0 then Cell.str ""
    else Cell.num (pyRound (savings_bytes / 1024) 1)
  let desc := opp.description.getD ""
  let desc2 := if 200 < desc.length then String.mk (desc.data.take 197) ++ "..." else desc
  [Cell.str (sanitize_for_excel url),
   Cell.str (pyCapitalize strategy_name),
   Cell.str (sanitize_for_excel (opp.title.getD "")),
   (match opp.savings_ms with
    | some v => Cell.num v
    | none => Cell.str ""),
   savings_kb,
   Cell.str (sanitize_for_excel desc2)]

/-- The Opportunities sheet: one row per (URL, strategy, opportunity), in
document order. -/
def oppRows (d : ExcelData) : List (List Cell) :=
  d.psi_results.flatMap (fun psi =>
    psi.strategies.flatMap (fun p =>
      p.2.opportunities.map (oppRow (psi.url.getD "") p.1)))

/-- All four sheets of `generate_excel`, in order: Summary, Core Web
Vitals, Network Analysis, Opportunities (data rows; the constant header
rows and styling are not modelled). -/
def buildWorkbook (d : ExcelData) :
    Except String
      (List (List Cell) × List (List Cell) × List (List Cell) × List (List Cell)) :=
  match mapE summaryRow d.psi_results with
  | Except.error e => Except.error e
  | Except.ok srows =>
    match mapE networkRow d.network_results with
    | Except.error e => Except.error e
    | Except.ok nrows => Except.ok (srows, cwvRows d, nrows, oppRows d)

theorem splitSlash_ne_nil (cs : List Char) : splitSlash cs ≠ [] := by
  induction cs with
  | nil => simp [splitSlash]
  | cons c t ih =>
    simp only [splitSlash]
    split
    · simp
    · split
      · simp
      · simp

theorem lastElem_ok {α : Type} : ∀ (l : List α), l ≠ [] → ∃ a, lastElem l = Except.ok a
  | [], h => absurd rfl h
  | [a], _ => ⟨a, rfl⟩
  | _ :: b :: t, _ => lastElem_ok (b :: t) (by simp)

theorem topIssueE_ok (opps : List OppDict) : ∃ s, topIssueE opps = Except.ok s := by
  cases opps with
  | nil => exact ⟨"", rfl⟩
  | cons o t => exact ⟨o.title.getD "", rfl⟩

theorem largestNameE_ok (l : List ResourceEntry) : ∃ s, largestNameE l = Except.ok s := by
  cases l with
  | nil => exact ⟨"", rfl⟩
  | cons r t =>
    obtain ⟨a, ha⟩ := lastElem_ok (splitSlash (r.url.getD "").data) (splitSlash_ne_nil _)
    refine ⟨String.mk (a.take 30) ++ " (" ++ fmt0f ((r.size_bytes.getD 0) / 1024) ++ "KB)", ?_⟩
    simp only [largestNameE, List.isEmpty_cons, Bool.false_eq_true, if_false, listIdx0, ha]

theorem summaryRow_ok (psi : PsiResult) : ∃ row, summaryRow psi = Except.ok row := by
  obtain ⟨s, hs⟩ :=
    topIssueE_ok ((lookupStr "mobile" psi.strategies).getD defaultStrategy).opportunities
  simp only [summaryRow, hs]
  exact ⟨_, rfl⟩

theorem networkRow_ok (nr : NetworkResult) : ∃ row, networkRow nr = Except.ok row := by
  obtain ⟨s, hs⟩ := largestNameE_ok (nr.largest_resources.getD [])
  simp only [networkRow, hs]
  exact ⟨_, rfl⟩

theorem mapE_ok {α β : Type} (f : α → Except String β) (l : List α)
    (h : ∀ a ∈ l, ∃ b, f a = Except.ok b) :
    ∃ bs, mapE f l = Except.ok bs ∧ bs.length = l.length := by
  induction l with
  | nil => exact ⟨[], rfl, rfl⟩
  | cons a t ih =>
    obtain ⟨b, hb⟩ := h a (List.mem_cons_self a t)
    obtain ⟨bs, hbs, hlen⟩ := ih (fun x hx => h x (List.mem_cons_of_mem a hx))
    refine ⟨b :: bs, ?_, by simp [hlen]⟩
    simp only [mapE, hb, hbs]

/-- Claim C9: For every input document — all nested fields optional —
building all four sheets succeeds (no exception path is reachable): the
workbook is produced with one Summary row per `psi_results` entry and one
Network Analysis row per `network_results` entry, so no entry aborts the
rest; and a `psi_results` entry with every field missing still yields a
Summary row of empty cells. -/
theorem claim_C9 (d : ExcelData) :
    ∃ srows nrows,
      buildWorkbook d = Except.ok (srows, cwvRows d, nrows, oppRows d) ∧
      srows.length = d.psi_results.length ∧
      nrows.length = d.network_results.length ∧
      summaryRow ⟨none, []⟩ =
        Except.ok [Cell.str "", Cell.str "", Cell.str "", Cell.str "", Cell.str "",
          Cell.str "", Cell.str ""] := by
  obtain ⟨srows, hs, hslen⟩ := mapE_ok summaryRow d.psi_results (fun a _ => summaryRow_ok a)
  obtain ⟨nrows, hn, hnlen⟩ := mapE_ok networkRow d.network_results (fun a _ => networkRow_ok a)
  refine ⟨srows, nrows, ?_, hslen, hnlen, rfl⟩
  simp only [buildWorkbook, hs, hn]

/-- Claim C8: In the Core Web Vitals sheet, each field-metric cell is the
value+unit string when the field metric is present, the literal `"N/A"`
when the field mapping or the key is absent or the value is null, and is
never the empty string; the LCP/INP/CLS Field columns of each row are
exactly `format_field_metric` applied to the page-level field mapping. -/
theorem claim_C8 (field : List (String × Option ℚ)) (key unit : String) :
    ((field = [] ∨ lookupStr key field = none ∨ lookupStr key field = some none) →
      format_field_metric field key unit = "N/A") ∧
    (∀ v : ℚ, lookupStr key field = some (some v) →
      format_field_metric field key unit = numStr v ++ unit) ∧
    format_field_metric field key unit ≠ "" ∧
    (∀ (url sname : String) (sd : StrategyData),
      (cwvRow url sname sd).get? 4 =
        some (Cell.str (format_field_metric (sd.field_metrics.getD []) "lcp_p75" "s")) ∧
      (cwvRow url sname sd).get? 6 =
        some (Cell.str (format_field_metric (sd.field_metrics.getD []) "inp_p75" "ms")) ∧
      (cwvRow url sname sd).get? 8 =
        some (Cell.str (format_field_metric (sd.field_metrics.getD []) "cls_p75" ""))) := by
  refine ⟨?_, ?_, ?_, fun url sname sd => ⟨rfl, rfl, rfl⟩⟩
  · intro h
    rcases h with h | h | h
    · simp [format_field_metric, h]
    · by_cases he : field.isEmpty
      · simp [format_field_metric, he]
      · simp [format_field_metric, he, h]
    · by_cases he : field.isEmpty
      · simp [format_field_metric, he]
      · simp [format_field_metric, he, h]
  · intro v hv
    have he : field.isEmpty = false := by
      cases field with
      | nil => simp [lookupStr] at hv
      | cons p t => rfl
    simp [format_field_metric, he, hv]
  · unfold format_field_metric
    split
    · decide
    · split
      · decide
      · decide
      · rename_i v hveq
        intro hc
        have hlen := congrArg String.length hc
        rw [String.length_append] at hlen
        have h0 : ("" : String).length = 0 := rfl
        rw [h0] at hlen
        have h1 := numStr_length_pos v
        omega

/-- Witness for C8: an absent mapping renders `"N/A"`; a present value
renders value+unit. -/
theorem claim_C8_witness :
    format_field_metric [] "lcp_p75" "s" = "N/A" ∧
    format_field_metric [("lcp_p75", some (21/5))] "lcp_p75" "s" = numStr (21/5) ++ "s" := by
  constructor
  · exact (claim_C8 [] "lcp_p75" "s").1 (Or.inl rfl)
  · exact (claim_C8 [("lcp_p75", some (21/5))] "lcp_p75" "s").2.1 (21/5) rfl

/-- Strategy with the domain-level origin field metrics cleared; the
other fields are untouched. -/
def scrubStrategy (sd : StrategyData) : StrategyData :=
  ⟨sd.performance_score, sd.core_web_vitals, sd.field_metrics, none, sd.opportunities⟩

/-- A psi result with every strategy's origin field metrics cleared. -/
def scrubPsi (psi : PsiResult) : PsiResult :=
  ⟨psi.url, psi.strategies.map (fun p => (p.1, scrubStrategy p.2))⟩

/-- A document with all origin field metrics cleared: two documents with
the same scrub differ at most in origin field metrics. -/
def scrubData (d : ExcelData) : ExcelData :=
  ⟨d.psi_results.map scrubPsi, d.network_results⟩

theorem cwvRows_scrub (d : ExcelData) : cwvRows (scrubData d) = cwvRows d := by
  obtain ⟨ps, ns⟩ := d
  unfold cwvRows scrubData
  simp only
  induction ps with
  | nil => rfl
  | cons psi t ih =>
    simp only [List.map_cons, List.flatMap_cons]
    rw [ih]
    congr 1
    unfold scrubPsi
    simp only [List.map_map]
    apply List.map_congr_left
    intro p hp
    rfl

/-- Claim C10: The Core Web Vitals sheet never consults the domain-level
origin field metrics: two documents that agree after clearing
`origin_field_metrics` everywhere produce identical sheet rows; and a
strategy with no page-level field data renders `"N/A"` in all three field
columns regardless of its origin data. -/
theorem claim_C10 (d₁ d₂ : ExcelData) :
    (scrubData d₁ = scrubData d₂ → cwvRows d₁ = cwvRows d₂) ∧
    (∀ (url sname : String) (sd : StrategyData), sd.field_metrics = none →
      ((cwvRow url sname sd).get? 4 = some (Cell.str "N/A") ∧
       (cwvRow url sname sd).get? 6 = some (Cell.str "N/A") ∧
       (cwvRow url sname sd).get? 8 = some (Cell.str "N/A"))) := by
  constructor
  · intro h
    rw [← cwvRows_scrub d₁, h, cwvRows_scrub d₂]
  · intro url sname sd hf
    refine ⟨?_, ?_, ?_⟩ <;> simp [cwvRow, hf, format_field_metric]

/-- Witness for C10: two one-strategy documents differing only in origin
field metrics produce the same sheet; the strategy without page-level
field data renders `"N/A"`. -/
theorem claim_C10_witness :
    cwvRows ⟨[⟨some "u", [("mobile",
        ⟨none, [], none, some [("lcp_p75", some 1)], []⟩)]⟩], []⟩ =
      cwvRows ⟨[⟨some "u", [("mobile", ⟨none, [], none, none, []⟩)]⟩], []⟩ ∧
    (cwvRow "u" "mobile" ⟨none, [], none, some [("lcp_p75", some 1)], []⟩).get? 4 =
      some (Cell.str "N/A") := by
  constructor
  · exact (claim_C10
      ⟨[⟨some "u", [("mobile", ⟨none, [], none, some [("lcp_p75", some 1)], []⟩)]⟩], []⟩
      ⟨[⟨some "u", [("mobile", ⟨none, [], none, none, []⟩)]⟩], []⟩).1 rfl
  · exact ((claim_C10 ⟨[], []⟩ ⟨[], []⟩).2 "u" "mobile"
      ⟨none, [], none, some [("lcp_p75", some 1)], []⟩ rfl).1
